import Mathlib

/-!
Verification of the distributed token-bucket rate limiter
(repository SrushtiPatil01/rate-limiter).

The development embeds the two layers that the claims are about:

* `scriptStep` is the atomic Redis Lua script `token_bucket.lua`
  (scripts/lua/token_bucket.lua), which reads the bucket state of one key,
  refills it, attempts to consume the requested tokens, recomputes the
  result tuple, persists the new state and sets a TTL.  Lua numbers are
  IEEE doubles; following the data model of the specification (fractional
  token count, a non-negative real number) they are embedded as exact
  rationals `ℚ`.

* `TokenBucket.allowStep` and `TokenBucket.peekStep` are the Go client
  (pkg/limiter/token_bucket.go): default/override parameter resolution,
  key namespacing with the `rl:` prefix, and invocation of the script.
  The Redis store is a partial map from namespaced key strings to bucket
  states; the per-key atomicity contract of the script is modelled by
  executing calls in an arbitrary serialized order.

* `parseReply` is the translation in the Go client of the raw Lua reply
  into a typed `Result`, including its handling of malformed replies.
-/

/-- Lua `math.min` on rationals. -/
def luaMin (a b : ℚ) : ℚ := if a ≤ b then a else b

/-- Lua `math.max` on rationals. -/
def luaMax (a b : ℚ) : ℚ := if a ≤ b then b else a

/-- Persisted bucket state: the Redis hash fields `tokens` and `last_ts`
of `token_bucket.lua`. -/
structure BucketState where
  tokens  : ℚ
  last_ts : ℚ
deriving DecidableEq, Repr

/-- The 5-tuple returned by `token_bucket.lua`:
(allowed 0/1, remaining, limit, reset_at, retry_after).
The script floors `remaining` and ceils `reset_at`; `retry_after` keeps
fractional precision (the script stringifies it only to preserve decimals
over the wire). -/
structure ScriptOut where
  allowed     : Int
  remaining   : Int
  limit       : ℚ
  reset_at    : Int
  retry_after : ℚ
deriving DecidableEq, Repr

/-- Everything one execution of `token_bucket.lua` produces: the returned
tuple, the state written back by HSET, and the TTL set by EXPIRE. -/
structure ScriptResult where
  out   : ScriptOut
  state : BucketState
  ttl   : Int
deriving DecidableEq, Repr

/-- One atomic execution of `token_bucket.lua` on the stored state of a
single key.  Mirrors the script line by line:
initialize `tokens = capacity, last_ts = now` when the key is absent;
`elapsed = math.max(0, now - last_ts)`;
`tokens = math.min(capacity, tokens + elapsed * rate)`; `last_ts = now`;
consume `requested` when `tokens >= requested`, else
`retry_after = (requested - tokens) / rate`;
`reset_at = now`, overwritten with `now + (capacity - tokens) / rate` when
`tokens < capacity`;
`ttl = math.ceil((capacity / rate) + 60)`;
return `(allowed, math.floor(tokens), capacity, math.ceil(reset_at),
retry_after)`. -/
def scriptStep (capacity rate now requested : ℚ) (stored : Option BucketState) :
    ScriptResult :=
  let tokens0 : ℚ := match stored with
    | some b => b.tokens
    | none => capacity
  let last0 : ℚ := match stored with
    | some b => b.last_ts
    | none => now
  let elapsed : ℚ := luaMax 0 (now - last0)
  let tokensR : ℚ := luaMin capacity (tokens0 + elapsed * rate)
  let tokensC : ℚ := if requested ≤ tokensR then tokensR - requested else tokensR
  let retryAfter : ℚ := if requested ≤ tokensR then 0 else (requested - tokensR) / rate
  let resetAt : ℚ := if tokensC < capacity then now + (capacity - tokensC) / rate else now
  { out := { allowed := if requested ≤ tokensR then 1 else 0
           , remaining := ⌊tokensC⌋
           , limit := capacity
           , reset_at := ⌈resetAt⌉
           , retry_after := retryAfter }
  , state := { tokens := tokensC, last_ts := now }
  , ttl := ⌈capacity / rate + 60⌉ }

/-- The Go `TokenBucket` client: a store handle plus the process-wide
defaults passed to `New`. -/
structure TokenBucket where
  defaultBurst : Int
  defaultRate  : ℚ
deriving Repr

/-- The coercion in `Allow`: `if tokens <= 0` then `tokens = 1`. -/
def effTokens (tokens : Int) : Int :=
  if tokens ≤ 0 then 1 else tokens

/-- The substitution in `Allow`: `if burst <= 0` then
`burst = tb.defaultBurst`. -/
def TokenBucket.effBurst (tb : TokenBucket) (burst : Int) : Int :=
  if burst ≤ 0 then tb.defaultBurst else burst

/-- The substitution in `Allow`: `if rate <= 0` then
`rate = tb.defaultRate`. -/
def TokenBucket.effRate (tb : TokenBucket) (rate : ℚ) : ℚ :=
  if rate ≤ 0 then tb.defaultRate else rate

/-- The Redis store as seen through the script: a partial map from
namespaced key strings to bucket states. -/
def Store : Type := String → Option BucketState

/-- The namespacing in the Go client: `redisKey = "rl:" + key`. -/
def redisKey (key : String) : String := "rl:" ++ key

/-- One `TokenBucket.Allow` call: resolve parameters, namespace the key,
run the script atomically on the state of that key, and write the new
state back.  Returns the script reply together with the updated store. -/
def TokenBucket.allowStep (tb : TokenBucket) (store : Store) (key : String)
    (tokens burst : Int) (rate now : ℚ) : ScriptOut × Store :=
  let r := scriptStep (tb.effBurst burst) (tb.effRate rate) now (effTokens tokens)
    (store (redisKey key))
  (r.out, fun k => if k = redisKey key then some r.state else store k)

/-- One `TokenBucket.Peek` call: resolves burst/rate defaults itself and
then delegates to `Allow` with `tokens = 0`
(the Go code is `return tb.Allow(ctx, key, 0, burst, rate)`). -/
def TokenBucket.peekStep (tb : TokenBucket) (store : Store) (key : String)
    (burst : Int) (rate now : ℚ) : ScriptOut × Store :=
  let b := if burst ≤ 0 then tb.defaultBurst else burst
  let r := if rate ≤ 0 then tb.defaultRate else rate
  tb.allowStep store key 0 b r now

/-- The empty store: no key holds any bucket state. -/
def emptyStore : Store := fun _ => none

/-- Spec-side refill description (spec section 4.1, steps 1 and 2): the
token level after initializing an absent bucket to
`tokens = capacity, last_refill_at = now` and refilling
`tokens = min(capacity, tokens + max(0, now - last_refill_at) * rate)`. -/
def refillTokens (capacity rate now : ℚ) (stored : Option BucketState) : ℚ :=
  let tokens0 : ℚ := match stored with
    | some b => b.tokens
    | none => capacity
  let last0 : ℚ := match stored with
    | some b => b.last_ts
    | none => now
  luaMin capacity (tokens0 + luaMax 0 (now - last0) * rate)

/-- Parameters of one script execution, for reasoning about sequences of
calls against a single key. -/
structure CallParams where
  capacity  : ℚ
  rate      : ℚ
  now       : ℚ
  requested : ℚ
deriving DecidableEq, Repr

/-- Run a sequence of script executions against the state of a single key,
in the serialized order imposed by the per-key atomicity of the store. -/
def runSeq (calls : List CallParams) (st : Option BucketState) :
    Option BucketState :=
  match calls with
  | [] => st
  | p :: rest =>
      runSeq rest (some (scriptStep p.capacity p.rate p.now p.requested st).state)

/-- One client call as issued through the Go `TokenBucket`: either an
`Allow` or a `Peek`, with its override parameters and timestamp. -/
inductive GoCall where
  | allow (tokens burst : Int) (rate now : ℚ)
  | peek (burst : Int) (rate now : ℚ)
deriving DecidableEq, Repr

/-- Run a sequence of Go-level `Allow` and `Peek` calls, all against the
same caller-supplied key, threading the store through. -/
def runGoCalls (tb : TokenBucket) (key : String) (calls : List GoCall)
    (store : Store) : Store :=
  match calls with
  | [] => store
  | .allow t b r n :: rest => runGoCalls tb key rest (tb.allowStep store key t b r n).2
  | .peek b r n :: rest => runGoCalls tb key rest (tb.peekStep store key b r n).2

/-- One full invocation of `token_bucket.lua` through EVAL, reply or
error, together with the state the script persisted.  `scriptStep` gives
the values the script body computes; this wrapper adds the store-level
outcome of the two redis.call statements.  Lua arithmetic is IEEE: when
`rate = 0` the TTL computation `capacity / rate + 60` yields an infinity
(or NaN for `capacity = 0`), the EXPIRE call rejects that argument with
ERR value is not an integer or out of range, `redis.call` raises, the
script aborts and EVAL returns the error to the client instead of the
reply tuple.  Redis does not roll back scripts: the HSET on the line
before EXPIRE has already committed, so the state is persisted even on
this error path.  For every nonzero rational rate the quotient is finite
and EXPIRE accepts the integer `ttl`. -/
def scriptCall (capacity rate now requested : ℚ) (stored : Option BucketState) :
    Except String ScriptOut × BucketState :=
  let s := scriptStep capacity rate now requested stored
  if rate = 0 then (.error "ERR value is not an integer or out of range", s.state)
  else (.ok s.out, s.state)

/-- One `TokenBucket.Allow` call including the error path: when EVAL
returns an error, the Go client wraps it (the code reads
`return nil, fmt.Errorf("redis eval: ...", err)`) and reports no
decision; the store still holds whatever the script persisted before
aborting. -/
def TokenBucket.allowCall (tb : TokenBucket) (store : Store) (key : String)
    (tokens burst : Int) (rate now : ℚ) : Except String ScriptOut × Store :=
  let r := scriptCall (tb.effBurst burst) (tb.effRate rate) now (effTokens tokens)
    (store (redisKey key))
  (match r.1 with
   | .error e => .error ("redis eval: " ++ e)
   | .ok out => .ok out,
   fun k => if k = redisKey key then some r.2 else store k)

/-- A raw value of the reply protocol of the store, as the Go client sees
it through interface values: integers, strings, or arrays.  These are the
only shapes a Lua script reply takes through go-redis. -/
inductive RV where
  | int (i : Int)
  | str (s : String)
  | arr (l : List RV)
deriving Repr

/-- The Go `Result` struct filled in by `Allow` from the raw reply. -/
structure GoResult where
  allowed    : Bool
  remaining  : Int
  limit      : Int
  resetAt    : Int
  retryAfter : ℚ
deriving DecidableEq, Repr

/-- The ignored-failure type assertion in Go (`v, _ = x.(int64)`): the
value when the reply element is an integer, and the zero value
otherwise. -/
def asInt64 : RV → Int
  | .int i => i
  | _ => 0

/-- The reply-translation tail of `TokenBucket.Allow`: checks that the raw
reply is an array and that its length is at least 5, then reads the five
elements with ignored-failure assertions (allowed, remaining, limit,
resetAt as int64; retryAfter via a type switch parsing a string with
`strconv.ParseFloat`, whose numeric semantics is abstracted as the
`parseFloat` argument, or accepting an int64).  Returns the error string
used by the Go code exactly when the Go code does. -/
def parseReply (parseFloat : String → ℚ) (raw : RV) : Except String GoResult :=
  match raw with
  | .arr vals =>
      if vals.length < 5 then .error "unexpected lua response"
      else
        let retryAfter : ℚ :=
          match vals.getD 4 (.int 0) with
          | .str s => parseFloat s
          | .int i => (i : ℚ)
          | _ => 0
        .ok { allowed := asInt64 (vals.getD 0 (.int 0)) = 1
            , remaining := asInt64 (vals.getD 1 (.int 0))
            , limit := asInt64 (vals.getD 2 (.int 0))
            , resetAt := asInt64 (vals.getD 3 (.int 0))
            , retryAfter := retryAfter }
  | _ => .error "unexpected lua response"

/-- A reply shape the Go client accepts without error: an array of at
least five elements. -/
def replyWellShaped : RV → Prop
  | .arr l => 5 ≤ l.length
  | _ => False

theorem luaMin_eq (a b : ℚ) : luaMin a b = min a b := by
  simp [luaMin, min_def]

theorem luaMax_eq (a b : ℚ) : luaMax a b = max a b := by
  simp [luaMax, max_def]

lemma scriptStep_tokens_eq (c r now q : ℚ) (st : Option BucketState) :
    (scriptStep c r now q st).state.tokens =
      (if q ≤ refillTokens c r now st then refillTokens c r now st - q
       else refillTokens c r now st) := rfl

lemma scriptStep_reset_eq (c r now q : ℚ) (st : Option BucketState) :
    (scriptStep c r now q st).out.reset_at =
      ⌈if (scriptStep c r now q st).state.tokens < c then
          now + (c - (scriptStep c r now q st).state.tokens) / r
        else now⌉ := rfl

lemma refillTokens_le (c r now : ℚ) (st : Option BucketState) :
    refillTokens c r now st ≤ c := by
  cases st <;> simp [refillTokens, luaMin_eq, min_le_left]

lemma refillTokens_nonneg (c r now : ℚ) (st : Option BucketState) (hc : 0 ≤ c)
    (hr : 0 ≤ r) (hst : ∀ b, st = some b → 0 ≤ b.tokens) :
    0 ≤ refillTokens c r now st := by
  cases st with
  | none =>
      simp [refillTokens, luaMin, luaMax, hc]
  | some b =>
      have hb : 0 ≤ b.tokens := hst b rfl
      simp only [refillTokens, luaMin_eq, luaMax_eq]
      exact le_min hc (add_nonneg hb (mul_nonneg (le_max_left 0 _) hr))

lemma scriptStep_tokens_le (c r now q : ℚ) (st : Option BucketState) (hq : 0 ≤ q) :
    (scriptStep c r now q st).state.tokens ≤ c := by
  rw [scriptStep_tokens_eq]
  have h := refillTokens_le c r now st
  split_ifs with h2
  · linarith
  · exact h

lemma scriptStep_tokens_nonneg (c r now q : ℚ) (st : Option BucketState)
    (hc : 0 ≤ c) (hr : 0 ≤ r) (hst : ∀ b, st = some b → 0 ≤ b.tokens) :
    0 ≤ (scriptStep c r now q st).state.tokens := by
  rw [scriptStep_tokens_eq]
  have h := refillTokens_nonneg c r now st hc hr hst
  split_ifs with h2
  · linarith
  · exact h

lemma runSeq_inv (calls : List CallParams)
    (hgood : ∀ p ∈ calls, 0 < p.capacity ∧ 0 < p.rate ∧ 0 ≤ p.requested) :
    ∀ (st : Option BucketState), (∀ b, st = some b → 0 ≤ b.tokens) →
    ∀ plast, calls.getLast? = some plast →
    ∃ b, runSeq calls st = some b ∧ 0 ≤ b.tokens ∧ b.tokens ≤ plast.capacity := by
  induction calls with
  | nil => intro st _ plast h; simp at h
  | cons p rest ih =>
      intro st hst plast hlast
      obtain ⟨hc, hr, hq⟩ := hgood p (List.mem_cons_self p rest)
      have hnn : 0 ≤ (scriptStep p.capacity p.rate p.now p.requested st).state.tokens :=
        scriptStep_tokens_nonneg _ _ _ _ _ (le_of_lt hc) (le_of_lt hr) hst
      cases rest with
      | nil =>
          refine ⟨(scriptStep p.capacity p.rate p.now p.requested st).state, rfl, hnn, ?_⟩
          have hp : p = plast := by simpa [List.getLast?] using hlast
          rw [← hp]
          exact scriptStep_tokens_le _ _ _ _ _ hq
      | cons p2 rest2 =>
          have hlast2 : (p2 :: rest2).getLast? = some plast := by
            rw [← hlast]
            exact List.getLast?_cons_cons.symm
          exact ih (fun x hx => hgood x (List.mem_cons_of_mem p hx))
            (some (scriptStep p.capacity p.rate p.now p.requested st).state)
            (fun b hb => (Option.some_inj.mp hb) ▸ hnn)
            plast hlast2

lemma redisKey_inj (A B : String) (h : redisKey A = redisKey B) : A = B := by
  unfold redisKey at h
  have hd := congrArg String.data h
  simp only [String.data_append] at hd
  exact String.ext (List.append_cancel_left hd)

lemma allowStep_frame (tb : TokenBucket) (store : Store) (key : String)
    (t b : Int) (r n : ℚ) (k : String) (hk : k ≠ redisKey key) :
    (tb.allowStep store key t b r n).2 k = store k := by
  simp [TokenBucket.allowStep, hk]

lemma peekStep_frame (tb : TokenBucket) (store : Store) (key : String)
    (b : Int) (r n : ℚ) (k : String) (hk : k ≠ redisKey key) :
    (tb.peekStep store key b r n).2 k = store k := by
  unfold TokenBucket.peekStep
  exact allowStep_frame tb store key 0 _ _ n k hk

lemma runGoCalls_frame (tb : TokenBucket) (key : String) (calls : List GoCall)
    (store : Store) (k : String) (hk : k ≠ redisKey key) :
    runGoCalls tb key calls store k = store k := by
  induction calls generalizing store with
  | nil => rfl
  | cons c rest ih =>
      cases c with
      | allow t b r n =>
          rw [runGoCalls, ih, allowStep_frame tb store key t b r n k hk]
      | peek b r n =>
          rw [runGoCalls, ih, peekStep_frame tb store key b r n k hk]

/-- C1: the claim says a `Peek` never consumes tokens and two consecutive
`Peek` calls with no intervening `Allow` report the same remaining value.
The code falsifies this: `Peek` delegates to `Allow` with `tokens = 0`,
and `Allow` coerces `tokens <= 0` to `1`, so every `Peek` consumes one
token.  With the defaults of the repository test TestPeek (burst 10,
rate 1), on a fresh key two consecutive `Peek` calls at the same instant
report remaining 9 and then 8, and the stored token count drops from 9
to 8.  This contradicts the doc comment of `Peek` in the source
(returns the current bucket state without consuming tokens) and TestPeek,
which expects 7 twice after three consumptions. -/
theorem peek_consumes_a_token :
    let tb : TokenBucket := ⟨10, 1⟩
    let r1 := tb.peekStep emptyStore "k" 0 0 0
    let r2 := tb.peekStep r1.2 "k" 0 0 0
    r1.1.remaining = 9 ∧ r2.1.remaining = 8 ∧
    r1.2 (redisKey "k") = some ⟨9, 0⟩ ∧ r2.2 (redisKey "k") = some ⟨8, 0⟩ := by
  norm_num [TokenBucket.peekStep, TokenBucket.allowStep, TokenBucket.effBurst,
    TokenBucket.effRate, effTokens, scriptStep, luaMin, luaMax, emptyStore, redisKey]

/-- C2: capacity invariant.  A single script execution with positive
capacity and rate and non-negative requested tokens, started from no
stored state or any stored state with token count in [0, capacity],
writes back a token count in [0, capacity]; and any non-empty sequence of
such executions started from no stored state ends with a stored token
count in [0, capacity of the last call]. -/
theorem capacity_invariant (c r now q : ℚ) (st : Option BucketState)
    (hc : 0 < c) (hr : 0 < r) (hq : 0 ≤ q)
    (hst : ∀ b, st = some b → 0 ≤ b.tokens ∧ b.tokens ≤ c)
    (calls : List CallParams)
    (hgood : ∀ p ∈ calls, 0 < p.capacity ∧ 0 < p.rate ∧ 0 ≤ p.requested)
    (plast : CallParams) (hlast : calls.getLast? = some plast) :
    (0 ≤ (scriptStep c r now q st).state.tokens ∧
      (scriptStep c r now q st).state.tokens ≤ c) ∧
    ∃ b, runSeq calls none = some b ∧ 0 ≤ b.tokens ∧ b.tokens ≤ plast.capacity := by
  refine ⟨⟨scriptStep_tokens_nonneg _ _ _ _ _ (le_of_lt hc) (le_of_lt hr)
    (fun b hb => (hst b hb).1), scriptStep_tokens_le _ _ _ _ _ hq⟩, ?_⟩
  exact runSeq_inv calls hgood none (fun b hb => Option.noConfusion hb) plast hlast

/-- Witness for C2 at capacity 5, rate 1, one call consuming 1 token. -/
theorem capacity_invariant_witness :
    ((0:ℚ) < 5 ∧ (0:ℚ) < 1 ∧ (0:ℚ) ≤ 1) ∧
    ((0 ≤ (scriptStep 5 1 0 1 none).state.tokens ∧
      (scriptStep 5 1 0 1 none).state.tokens ≤ 5) ∧
    ∃ b, runSeq [⟨5, 1, 0, 1⟩] none = some b ∧ 0 ≤ b.tokens ∧
      b.tokens ≤ (⟨5, 1, 0, 1⟩ : CallParams).capacity) :=
  ⟨by norm_num,
   capacity_invariant 5 1 0 1 none (by norm_num) (by norm_num) (by norm_num)
     (fun b hb => Option.noConfusion hb) [⟨5, 1, 0, 1⟩]
     (by intro p hp; rw [List.mem_singleton] at hp; subst hp; norm_num)
     ⟨5, 1, 0, 1⟩ rfl⟩

/-- C3, counterexample: the claim says that for every process-wide default
rate, a call parameter of rate less or equal 0 is substituted so that the
script never executes with rate less or equal 0.  The substitution uses
the default rate itself, which nothing validates: with default rate 0 (as
in the repository test TestAllow_Concurrent, which constructs the limiter
with New(rdb, 100, 0)), a call with rate -1 invokes the script with
effective rate 0. -/
theorem rate_guard_fails_on_nonpositive_default :
    TokenBucket.effRate ⟨100, 0⟩ (-1) = 0 ∧
    ¬ (0 < TokenBucket.effRate ⟨100, 0⟩ (-1)) := by
  norm_num [TokenBucket.effRate]

/-- C3, amended: when the process-wide default rate is positive, the
effective rate passed to the script by `Allow` and `Peek` is positive (in
particular nonzero), so the divisions by rate in the retry_after, reset_at
and TTL computations never divide by zero. -/
theorem rate_guard_with_positive_default (tb : TokenBucket) (rate : ℚ)
    (hd : 0 < tb.defaultRate) :
    0 < tb.effRate rate ∧ tb.effRate rate ≠ 0 := by
  unfold TokenBucket.effRate
  split_ifs with h
  · exact ⟨hd, ne_of_gt hd⟩
  · push_neg at h
    exact ⟨h, ne_of_gt h⟩

/-- Witness for the amended C3 at default rate 10 and call rate -1. -/
theorem rate_guard_with_positive_default_witness :
    (0:ℚ) < (⟨100, 10⟩ : TokenBucket).defaultRate ∧
    (0 < TokenBucket.effRate ⟨100, 10⟩ (-1) ∧
     TokenBucket.effRate ⟨100, 10⟩ (-1) ≠ 0) :=
  ⟨by norm_num, rate_guard_with_positive_default ⟨100, 10⟩ (-1) (by norm_num)⟩

/-- C4: refill step.  Every script execution initializes an absent bucket
to full (the spec-side `refillTokens` evaluates to `capacity` on no stored
state), sets the written-back token count to the refilled level
min(capacity, tokens + max(0, now - last_refill_at) * rate) minus the
consumption (when granted), and advances the watermark `last_ts` to `now`
unconditionally, whether or not the request is granted. -/
theorem refill_step_correct (c r now q : ℚ) (st : Option BucketState) :
    (scriptStep c r now q st).state.last_ts = now ∧
    (scriptStep c r now q st).state.tokens =
      (if q ≤ refillTokens c r now st then refillTokens c r now st - q
       else refillTokens c r now st) ∧
    refillTokens c r now none = c := by
  refine ⟨rfl, rfl, ?_⟩
  simp [refillTokens, luaMin, luaMax]

/-- C5: consume step and retry_after.  With `pre` the post-refill token
level, the script grants the request exactly when requested is at most
`pre`; on a grant it subtracts exactly the requested amount and reports
retry_after 0, and on a denial it leaves the token count unchanged and
reports retry_after = (requested - pre) / rate, computed against the
pre-denial level. -/
theorem consume_and_retry_after_correct (c r now q : ℚ) (st : Option BucketState) :
    (scriptStep c r now q st).out.allowed =
      (if q ≤ refillTokens c r now st then 1 else 0) ∧
    (scriptStep c r now q st).state.tokens =
      (if q ≤ refillTokens c r now st then refillTokens c r now st - q
       else refillTokens c r now st) ∧
    (scriptStep c r now q st).out.retry_after =
      (if q ≤ refillTokens c r now st then 0 else (q - refillTokens c r now st) / r) :=
  ⟨rfl, rfl, rfl⟩

/-- C6: result tuple and reset_at.  For non-negative requested tokens,
reset_at is the ceiling of `now` when the post-consume token count equals
capacity and of now + (capacity - tokens) / rate otherwise (a formula
independent of whether the call was allowed), remaining is the floor of
the post-consume token count, limit is the capacity, and the allowed flag
is 0 or 1. -/
theorem result_tuple_and_reset_at (c r now q : ℚ) (st : Option BucketState)
    (hq : 0 ≤ q) :
    (scriptStep c r now q st).out.reset_at =
      ⌈if (scriptStep c r now q st).state.tokens = c then now
        else now + (c - (scriptStep c r now q st).state.tokens) / r⌉ ∧
    (scriptStep c r now q st).out.remaining =
      ⌊(scriptStep c r now q st).state.tokens⌋ ∧
    (scriptStep c r now q st).out.limit = c ∧
    ((scriptStep c r now q st).out.allowed = 1 ∨
     (scriptStep c r now q st).out.allowed = 0) := by
  refine ⟨?_, rfl, rfl, ?_⟩
  · rw [scriptStep_reset_eq]
    have hle := scriptStep_tokens_le c r now q st hq
    rcases eq_or_lt_of_le hle with he | hlt
    · simp [he]
    · simp [hlt, ne_of_lt hlt]
  · rw [show (scriptStep c r now q st).out.allowed =
      (if q ≤ refillTokens c r now st then 1 else 0) from rfl]
    split_ifs <;> simp

/-- Witness for C6 at capacity 5, rate 1, one requested token on a fresh
key. -/
theorem result_tuple_and_reset_at_witness :
    (0:ℚ) ≤ 1 ∧
    ((scriptStep 5 1 0 1 none).out.reset_at =
      ⌈if (scriptStep 5 1 0 1 none).state.tokens = 5 then (0:ℚ)
        else 0 + (5 - (scriptStep 5 1 0 1 none).state.tokens) / 1⌉ ∧
    (scriptStep 5 1 0 1 none).out.remaining = ⌊(scriptStep 5 1 0 1 none).state.tokens⌋ ∧
    (scriptStep 5 1 0 1 none).out.limit = 5 ∧
    ((scriptStep 5 1 0 1 none).out.allowed = 1 ∨
     (scriptStep 5 1 0 1 none).out.allowed = 0)) :=
  ⟨by norm_num, result_tuple_and_reset_at 5 1 0 1 none (by norm_num)⟩

/-- C7: the claim says N concurrent Allow(key, 1, capacity=C, rate=0)
calls against a fresh key admit exactly min(N, C) and deny the rest, as
the repository test TestAllow_Concurrent also expects with its limiter
New(rdb, 100, 0) and 200 calls of Allow(key, 1, 100, 0).  The code
falsifies this: a call rate of 0 is substituted by the default rate 0, so
the script executes with rate 0, its TTL computation
math.ceil(capacity/0 + 60) yields an infinity, EXPIRE rejects that
argument, redis.call raises and EVAL returns an error — so every one of
the N calls surfaces a store error (wrapped as redis eval) and produces
no admission decision at all, rather than min(N, C) allows and
N - min(N, C) denials. -/
theorem exact_admission_errors_at_rate_zero (tb : TokenBucket)
    (hd : tb.defaultRate = 0) (store : Store) (key : String) (t b : Int)
    (r now : ℚ) (hr : r ≤ 0) :
    (tb.allowCall store key t b r now).1 =
      .error ("redis eval: " ++ "ERR value is not an integer or out of range") := by
  have heff : tb.effRate r = 0 := by
    rw [TokenBucket.effRate, if_pos hr, hd]
  unfold TokenBucket.allowCall scriptCall
  rw [heff]
  simp

/-- Witness for C7 in the setup of TestAllow_Concurrent: default rate 0,
one Allow(key, 1, 100, 0) against a fresh key returns the wrapped EXPIRE
error instead of a decision. -/
theorem exact_admission_errors_at_rate_zero_witness :
    (⟨100, 0⟩ : TokenBucket).defaultRate = 0 ∧ (0:ℚ) ≤ 0 ∧
    ((⟨100, 0⟩ : TokenBucket).allowCall emptyStore "test:concurrent" 1 100 0 0).1 =
      .error ("redis eval: " ++ "ERR value is not an integer or out of range") :=
  ⟨rfl, by norm_num,
   exact_admission_errors_at_rate_zero ⟨100, 0⟩ rfl emptyStore "test:concurrent"
     1 100 0 0 (by norm_num)⟩

/-- C8: expiry.  On every script execution with positive rate, the TTL set
on the key is exactly ceil(capacity / rate) + 60 seconds, since
ceil(x + 60) = ceil(x) + 60 for integral 60. -/
theorem expiry_ttl (c r now q : ℚ) (st : Option BucketState) (hr : 0 < r) :
    (scriptStep c r now q st).ttl = ⌈c / r⌉ + 60 := by
  have h60 : (60:ℚ) = ((60:ℤ):ℚ) := by norm_num
  show ⌈c / r + 60⌉ = ⌈c / r⌉ + 60
  rw [h60, Int.ceil_add_int]

/-- Witness for C8 at capacity 5, rate 1. -/
theorem expiry_ttl_witness :
    (0:ℚ) < 1 ∧ (scriptStep 5 1 0 1 none).ttl = ⌈(5:ℚ)/1⌉ + 60 :=
  ⟨by norm_num, expiry_ttl 5 1 0 1 none (by norm_num)⟩

/-- C9: key isolation.  Any sequence of `Allow` and `Peek` calls against
key A leaves the stored state of every distinct key B unchanged; an
`Allow` against B after the sequence returns exactly what it would have
returned before the sequence; and when B has no stored state, that call is
computed by the script from an absent bucket, hence from full capacity. -/
theorem key_isolation (tb : TokenBucket) (A B : String) (hAB : A ≠ B)
    (calls : List GoCall) (store : Store) (t b : Int) (r n : ℚ) :
    runGoCalls tb A calls store (redisKey B) = store (redisKey B) ∧
    (tb.allowStep (runGoCalls tb A calls store) B t b r n).1 =
      (tb.allowStep store B t b r n).1 ∧
    (store (redisKey B) = none →
      (tb.allowStep (runGoCalls tb A calls store) B t b r n).1 =
        (scriptStep (tb.effBurst b) (tb.effRate r) n (effTokens t) none).out) := by
  have hkey : redisKey B ≠ redisKey A := fun h => hAB (redisKey_inj B A h).symm
  have hframe := runGoCalls_frame tb A calls store (redisKey B) hkey
  refine ⟨hframe, ?_, ?_⟩
  · simp only [TokenBucket.allowStep, hframe]
  · intro hnone
    simp only [TokenBucket.allowStep, hframe, hnone]

/-- Witness for C9: an `Allow` and a `Peek` against key a do not touch
key b in the empty store. -/
theorem key_isolation_witness :
    (("a":String) ≠ "b") ∧
    (runGoCalls ⟨5, 1⟩ "a" [.allow 1 0 0 0, .peek 0 0 0] emptyStore (redisKey "b") =
      emptyStore (redisKey "b") ∧
    ((⟨5, 1⟩ : TokenBucket).allowStep
        (runGoCalls ⟨5, 1⟩ "a" [.allow 1 0 0 0, .peek 0 0 0] emptyStore) "b" 1 0 0 0).1 =
      ((⟨5, 1⟩ : TokenBucket).allowStep emptyStore "b" 1 0 0 0).1 ∧
    (emptyStore (redisKey "b") = none →
      ((⟨5, 1⟩ : TokenBucket).allowStep
          (runGoCalls ⟨5, 1⟩ "a" [.allow 1 0 0 0, .peek 0 0 0] emptyStore) "b" 1 0 0 0).1 =
        (scriptStep ((⟨5, 1⟩ : TokenBucket).effBurst 0)
          ((⟨5, 1⟩ : TokenBucket).effRate 0) 0 (effTokens 1) none).out)) :=
  ⟨by decide, key_isolation ⟨5, 1⟩ "a" "b" (by decide)
    [.allow 1 0 0 0, .peek 0 0 0] emptyStore 1 0 0 0⟩

/-- C10, counterexample: the claim says every reply that is not a
well-formed 5-tuple, including one of wrong element types, yields an
error.  The Go code only checks arity: a five-element array whose first
four elements are strings parses without error into the zero-valued
result (allowed false, all counters 0), indistinguishable from a
rate-limit denial. -/
theorem malformed_reply_wrong_types_not_error :
    parseReply (fun _ => 0) (.arr [.str "a", .str "b", .str "c", .str "d", .int 0]) =
      .ok { allowed := false, remaining := 0, limit := 0, resetAt := 0, retryAfter := 0 } := by
  simp [parseReply, asInt64]

/-- C10, amended: the client returns an error exactly when the raw reply
is not an array of at least five elements (wrong arity or not an array);
a reply with at least five elements always parses into a result, with
mistyped elements silently coerced to zero values. -/
theorem malformed_reply_error_iff_shape (pf : String → ℚ) (raw : RV) :
    (∃ e, parseReply pf raw = .error e) ↔ ¬ replyWellShaped raw := by
  cases raw with
  | int i => simp [parseReply, replyWellShaped]
  | str s => simp [parseReply, replyWellShaped]
  | arr l =>
      by_cases h : l.length < 5
      · simp [parseReply, replyWellShaped, h]
      · simp [parseReply, replyWellShaped, h]
